import Mathlib

/-!
# Verification of the coding-agent core

Shallow embedding of the agent's control loop and its supporting
mechanisms, translated from the Python sources:

* `agent/orchestrator.py` — the plan/execute/verify/analyze loop;
* `agent/planning/context_manager.py` — context compaction;
* `agent/execution/code_generator.py` — change generation and application;
* `agent/tools/file_ops.py` — file write/delete/backup/diff;
* `agent/verification/test_runner.py` — test-output parsing;
* `agent/verification/llm_judge.py` — the convergence judge fallback.

External collaborators (the LLM provider, subprocess execution, the real
clock) are modelled as explicit parameters: a structured-generation call
becomes an `Except`/`Option` argument, the current timestamp becomes a
string argument, and the filesystem becomes an explicit state value.
-/

namespace CodingAgent

/-! ## Character/string scanning primitives

Python's `re.search` calls in the sources use only patterns of the shapes
`LIT`, `(\d+)\s+LIT`, `LIT(\d+)` and `Ran\s+(\d+)\s+test`; these scanners
reproduce leftmost-match semantics for exactly those shapes (a greedy
`\d+` followed by `\s` can only match a maximal digit run, so maximal-run
scanning coincides with the regex engine's backtracking behaviour). -/

/-- Decide whether the first list is a prefix of the second. -/
def prefixChars : List Char → List Char → Bool
  | [], _ => true
  | _ :: _, [] => false
  | a :: as, b :: bs => a == b && prefixChars as bs

/-- Python's `needle in hay` substring test. -/
def containsSub (needle : List Char) : List Char → Bool
  | [] => prefixChars needle []
  | c :: rest => prefixChars needle (c :: rest) || containsSub needle rest

/-- Numeric value of a digit run, as `int()` of the captured group. -/
def natOfDigits (ds : List Char) : Nat :=
  ds.foldl (fun n c => 10 * n + (c.toNat - 48)) 0

/-- Match `(\d+)\s+LIT` anchored at the current position: a nonempty
maximal digit run, nonempty whitespace, then the literal. -/
def matchNumLit (lit : List Char) (s : List Char) : Option Nat :=
  let ds := s.takeWhile Char.isDigit
  let r1 := s.dropWhile Char.isDigit
  if ds.isEmpty then none
  else
    let ws := r1.takeWhile Char.isWhitespace
    let r2 := r1.dropWhile Char.isWhitespace
    if ws.isEmpty then none
    else if prefixChars lit r2 then some (natOfDigits ds) else none

/-- `re.search` for `(\d+)\s+LIT`: leftmost match wins. -/
def searchNumLit (lit : List Char) : List Char → Option Nat
  | [] => none
  | c :: rest =>
    match matchNumLit lit (c :: rest) with
    | some n => some n
    | none => searchNumLit lit rest

/-- Match `LIT(\d+)` anchored at the current position. -/
def matchLitNum (lit : List Char) (s : List Char) : Option Nat :=
  if prefixChars lit s then
    let ds := (s.drop lit.length).takeWhile Char.isDigit
    if ds.isEmpty then none else some (natOfDigits ds)
  else none

/-- `re.search` for `LIT(\d+)`: leftmost match wins. -/
def searchLitNum (lit : List Char) : List Char → Option Nat
  | [] => none
  | c :: rest =>
    match matchLitNum lit (c :: rest) with
    | some n => some n
    | none => searchLitNum lit rest

/-- Match `Ran\s+(\d+)\s+test` anchored at the current position. -/
def matchRan (s : List Char) : Option Nat :=
  if prefixChars ("Ran".data) s then
    let r1 := s.drop 3
    if (r1.takeWhile Char.isWhitespace).isEmpty then none
    else
      let r2 := r1.dropWhile Char.isWhitespace
      let ds := r2.takeWhile Char.isDigit
      if ds.isEmpty then none
      else
        let r3 := r2.dropWhile Char.isDigit
        if (r3.takeWhile Char.isWhitespace).isEmpty then none
        else
          let r4 := r3.dropWhile Char.isWhitespace
          if prefixChars ("test".data) r4 then some (natOfDigits ds) else none
  else none

/-- `re.search` for the summary line `Ran\s+(\d+)\s+test`. -/
def searchRan : List Char → Option Nat
  | [] => none
  | c :: rest =>
    match matchRan (c :: rest) with
    | some n => some n
    | none => searchRan rest

/-! ## Test-output parsers (`agent/verification/test_runner.py`)

Counts are `Int`, as in Python, where `TestResult`'s pydantic fields are
plain (possibly negative) machine integers. Each parser returns the
Python tuple `(passed, failed, skipped)`. -/

/-- `TestRunner._parse_pytest_output`: gate on any count pattern appearing,
then scan line by line, the last matching line winning for each count. -/
def parsePytestOutput (output : String) : Int × Int × Int :=
  let s := output.data
  let gate := (searchNumLit ("passed".data) s).isSome
    || (searchNumLit ("failed".data) s).isSome
    || (searchNumLit ("skipped".data) s).isSome
  if gate then
    (output.splitOn "\n").foldl
      (fun acc line =>
        let lc := line.data
        let p :=
          if containsSub ("passed".data) lc then
            match searchNumLit ("passed".data) lc with
            | some n => (n : Int)
            | none => acc.1
          else acc.1
        let f :=
          if containsSub ("failed".data) lc then
            match searchNumLit ("failed".data) lc with
            | some n => (n : Int)
            | none => acc.2.1
          else acc.2.1
        let sk :=
          if containsSub ("skipped".data) lc then
            match searchNumLit ("skipped".data) lc with
            | some n => (n : Int)
            | none => acc.2.2
          else acc.2.2
        (p, f, sk))
      (0, 0, 0)
  else (0, 0, 0)

/-- Jest pattern `Tests:.*?(\d+)\s+LIT`: the un-dotall lazy gap may not
cross a newline, so the digit run must start on the same line as the
`Tests:` marker; the `\s+` may then cross lines. -/
def jestScanLine (lit : List Char) : List Char → Option Nat
  | [] => none
  | c :: rest =>
    match matchNumLit lit (c :: rest) with
    | some n => some n
    | none => if c == '\n' then none else jestScanLine lit rest

/-- `re.search` for `Tests:.*?(\d+)\s+LIT` over the whole output. -/
def searchJestNum (lit : List Char) : List Char → Option Nat
  | [] => none
  | c :: rest =>
    if prefixChars ("Tests:".data) (c :: rest) then
      match jestScanLine lit ((c :: rest).drop 6) with
      | some n => some n
      | none => searchJestNum lit rest
    else searchJestNum lit rest

/-- `TestRunner._parse_jest_output`. -/
def parseJestOutput (output : String) : Int × Int × Int :=
  let s := output.data
  if containsSub ("Tests:".data) s then
    (((searchJestNum ("passed".data) s).getD 0 : Nat),
     ((searchJestNum ("failed".data) s).getD 0 : Nat),
     ((searchJestNum ("skipped".data) s).getD 0 : Nat))
  else (0, 0, 0)

/-- `TestRunner._parse_unittest_output`: reads the total from the
`Ran N test` summary line and derives `passed = total - failed - skipped`
by plain integer subtraction. -/
def parseUnittestOutput (output : String) : Int × Int × Int :=
  let s := output.data
  match searchRan s with
  | none => (0, 0, 0)
  | some total =>
    let failures := (searchLitNum ("failures=".data) s).getD 0
    let errors := (searchLitNum ("errors=".data) s).getD 0
    let skipped := (searchLitNum ("skipped=".data) s).getD 0
    let failed : Int := (failures : Int) + (errors : Int)
    ((total : Int) - failed - (skipped : Int), failed, (skipped : Int))

/-! ## Test results and the derived pass flag (`orchestrator._verification_node`) -/

/-- `agent/models.py` `TestResult`; counts are Python ints. -/
structure TestResult where
  framework : String
  passed : Int
  failed : Int
  skipped : Int
  output : String
  error_messages : List String
deriving DecidableEq, Repr

/-- The derivation at `orchestrator.py:250-252`:
`tests_passed = (test_result.failed == 0 and test_result.passed > 0)`. -/
def deriveTestsPassed (r : TestResult) : Bool :=
  (r.failed == 0) && decide (0 < r.passed)

/-- `_verification_node`'s test step: on a successful run the flag is
derived from the result; when `run_tests` raises, the flag keeps its
pydantic default `False` and no result is stored. -/
def verificationTestsPassed (testRun : Except String TestResult) :
    Bool × Option TestResult :=
  match testRun with
  | .ok r => (deriveTestsPassed r, some r)
  | .error _ => (false, none)

/-- A concrete verification-phase test result: one test passed, one was
an expected failure. Pytest prints the summary
`1 passed, 1 xfailed in 0.30s`; the count parser sees `passed = 1` and
`failed = 0` (no digit run precedes the whitespace-delimited word
`failed`), so the derived `tests_passed` flag is true. -/
def xfailTestResult : TestResult :=
  ⟨"pytest", 1, 0, 0, "1 passed, 1 xfailed in 0.30s", []⟩

/-- Real unittest output for a test module that fails at import time:
zero tests are collected and the run reports one error. -/
def unittestErrorOutput : String := "Ran 0 tests in 0.000s\n\nFAILED (errors=1)"

/-! ## The orchestration loop (`agent/orchestrator.py`) -/

/-- `agent/models.py` `TaskStatus`. -/
inductive TaskStatus where
  | pending
  | planning
  | executing
  | verifying
  | completed
  | failed
deriving DecidableEq, Repr

/-- The parts of a `VerificationResult` that the analysis node inspects. -/
structure VerifOutcome where
  testsPassed : Bool
  qualityScore : ℚ
deriving DecidableEq, Repr

/-- The fields of `AgentState` that drive the loop. -/
structure LoopState where
  iteration : Nat
  shouldContinue : Bool
  completionReason : Option String
  taskStatus : TaskStatus
  verification : Option VerifOutcome
deriving DecidableEq, Repr

/-- `orchestrator._analysis_node`: increment the iteration, stop with
reason `max_iterations` once the budget is reached, stop with reason
`success` when the verification passed tests with quality at least 0.7,
otherwise continue. -/
def analysisNode (maxIterations : Nat) (st : LoopState) : LoopState :=
  let it := st.iteration + 1
  if maxIterations ≤ it then
    { st with iteration := it, shouldContinue := false,
              completionReason := some "max_iterations",
              taskStatus := .completed }
  else
    match st.verification with
    | some v =>
      if v.testsPassed = true ∧ (7 : ℚ) / 10 ≤ v.qualityScore then
        { st with iteration := it, shouldContinue := false,
                  completionReason := some "success",
                  taskStatus := .completed }
      else
        { st with iteration := it, shouldContinue := true }
    | none => { st with iteration := it, shouldContinue := true }

/-- One full plan → execute → verify → analyze pass. The first three
nodes update the task status and (in the verification node) store the
iteration's verification outcome; the analysis node then decides. -/
def cycle (maxIterations : Nat) (outcome : VerifOutcome) (st : LoopState) :
    LoopState :=
  let afterPlan := { st with taskStatus := .planning }
  let afterExec := { afterPlan with taskStatus := .executing }
  let afterVerify :=
    { afterExec with taskStatus := .verifying, verification := some outcome }
  analysisNode maxIterations afterVerify

/-- The LangGraph loop: run cycles, following the `continue`/`end`
conditional edge from `_should_continue`, and count the cycles run.
The `outcomes` function gives the verification outcome produced while
the state holds a given iteration count. -/
def runLoop (M : Nat) (outcomes : Nat → VerifOutcome) (st : LoopState)
    (acc : Nat) : LoopState × Nat :=
  let stNext := cycle M (outcomes st.iteration) st
  if h : stNext.shouldContinue = true then
    runLoop M outcomes stNext (acc + 1)
  else (stNext, acc + 1)
termination_by M - st.iteration
decreasing_by
  have h1 : st.iteration + 1 < M := by
    by_cases hM : M ≤ st.iteration + 1
    · simp only [stNext] at h
      unfold cycle analysisNode at h
      dsimp only at h
      rw [if_pos hM] at h
      exact absurd h (by simp)
    · exact Nat.lt_of_not_le hM
  have h2 : (cycle M (outcomes st.iteration) st).iteration
      = st.iteration + 1 := by
    unfold cycle analysisNode
    dsimp only
    split
    · rfl
    · split
      · rfl
      · rfl
  simp only [stNext] at *
  omega

/-- The initial `AgentState` built in `AgentOrchestrator.run`. -/
def initialLoopState : LoopState :=
  { iteration := 0, shouldContinue := true, completionReason := none,
    taskStatus := .pending, verification := none }

/-- `run`: invoke the workflow from the initial state; the second
component counts the full cycles performed. -/
def runAgent (M : Nat) (outcomes : Nat → VerifOutcome) : LoopState × Nat :=
  runLoop M outcomes initialLoopState 0

/-- An iteration's verification fails the convergence policy. -/
def failsVerification (v : VerifOutcome) : Prop :=
  v.testsPassed = false ∨ v.qualityScore < (7 : ℚ) / 10

/-- An iteration's verification meets the convergence policy. -/
def meetsVerification (v : VerifOutcome) : Prop :=
  v.testsPassed = true ∧ (7 : ℚ) / 10 ≤ v.qualityScore

/-- A verification outcome failing both convergence conditions. -/
def alwaysFailing : Nat → VerifOutcome := fun _ => ⟨false, 0⟩

/-- Verification outcomes that fail on the first iteration and meet the
convergence policy from the second on. -/
def succeedsAtTwo : Nat → VerifOutcome := fun i =>
  if i = 0 then ⟨false, 0⟩ else ⟨true, (3 : ℚ) / 4⟩

/-! ## Context compaction (`agent/planning/context_manager.py`) -/

/-- `agent/models.py` `Message`. -/
structure Msg where
  role : String
  content : String
  metadata : List (String × String)
deriving DecidableEq, Repr

/-- The slice `conversation_history[len(system_messages):-keep_recent]`
that `compact_context` summarizes. Python's negative-index slicing makes
the stop index `0` (not the length) when `keep_recent` is `0`. -/
def messagesToSummarize (history : List Msg) (keepRecent : Nat) : List Msg :=
  let sysCount := (history.filter (fun m => m.role == "system")).length
  let stop := if keepRecent = 0 then 0 else history.length - keepRecent
  (history.drop sysCount).take (stop - sysCount)

/-- `ContextManager.compact_context`. The summarization call is modelled
by `gen`, applied to the messages handed to the summary prompt; `none`
models `generate` raising. Python's `history[-keep:]` is the whole list
when `keep` is `0`. -/
def compactContext (keepRecent : Nat) (gen : List Msg → Option String)
    (history : List Msg) : List Msg :=
  if history.length ≤ keepRecent then history
  else
    let systemMessages := history.filter (fun m => m.role == "system")
    let recentMessages :=
      if keepRecent = 0 then history
      else history.drop (history.length - keepRecent)
    let middle := messagesToSummarize history keepRecent
    if middle.isEmpty then history
    else
      match gen middle with
      | some s =>
        systemMessages
          ++ [⟨"system", "[Summary of previous conversation]: " ++ s,
               [("type", "summary")]⟩]
          ++ recentMessages
      | none => systemMessages ++ recentMessages

/-- A history whose system message is not at the front. -/
def nonPrefixHistory : List Msg :=
  [⟨"user", "a", []⟩, ⟨"system", "s", []⟩, ⟨"user", "b", []⟩, ⟨"user", "c", []⟩]

/-- The system prefix of the compaction witness history. -/
def sysPrefixS : List Msg := [⟨"system", "sys0", []⟩]

/-- The non-system tail of the compaction witness history: seven user
messages. -/
def userTailR : List Msg :=
  [⟨"user", "u1", []⟩, ⟨"user", "u2", []⟩, ⟨"user", "u3", []⟩,
   ⟨"user", "u4", []⟩, ⟨"user", "u5", []⟩, ⟨"user", "u6", []⟩,
   ⟨"user", "u7", []⟩]

/-! ## Convergence judge (`agent/verification/llm_judge.py`) -/

/-- The judgment dictionary produced by `judge_completion`. -/
structure Judgment where
  task_completed : Bool
  quality_score : ℚ
  issues : List String
  suggestions : List String
  reasoning : String
deriving DecidableEq, Repr

/-- Python `str.lower`, restricted to the ASCII case map. -/
def lowerStr (s : String) : String := String.mk (s.data.map Char.toLower)

/-- The fallback's local heuristic:
`"passed" in test_output.lower() and "failed" not in test_output.lower()`. -/
def fallbackTestsPassed (testOutput : String) : Bool :=
  containsSub ("passed".data) (lowerStr testOutput).data
    && !(containsSub ("failed".data) (lowerStr testOutput).data)

/-- The fallback judgment built in `judge_completion`'s handler. -/
def judgeFallback (testOutput : String) : Judgment :=
  let testsPassed := fallbackTestsPassed testOutput
  { task_completed := testsPassed,
    quality_score := if testsPassed then (7 : ℚ) / 10 else (3 : ℚ) / 10,
    issues := ["LLM judgment unavailable"],
    suggestions := [],
    reasoning := "Fallback judgment based on tests: "
      ++ (if testsPassed then "True" else "False") }

/-- `LLMJudge.judge_completion`: return the structured generation when it
parses, and the heuristic fallback when it raises. -/
def judge_completion (structuredResult : Except String Judgment)
    (testOutput : String) : Judgment :=
  match structuredResult with
  | .ok j => j
  | .error _ => judgeFallback testOutput

/-! ## File operations (`agent/tools/file_ops.py`)

The workspace and the backup directory are explicit finite states
(path-indexed maps); the `datetime.now().strftime` timestamp is
an explicit string argument. -/

/-- Workspace files plus the backup directory. -/
structure FileSystem where
  files : String → Option String
  backups : String → Option String

/-- `Path(file_path).name`: the final path component. -/
def fileName (p : String) : String := (p.splitOn "/").getLastD ""

/-- The backup path built by `_backup_file`:
`f"{file_path.name}.{timestamp}.bak"`. -/
def backupName (name ts : String) : String := name ++ "." ++ ts ++ ".bak"

/-- `FileOperations._backup_file`: copy the file's current bytes to the
backup directory (only ever called on an existing file). -/
def backupFile (fs : FileSystem) (p ts : String) : FileSystem :=
  match fs.files p with
  | some content =>
    { fs with backups := fun n =>
        if n = backupName (fileName p) ts then some content else fs.backups n }
  | none => fs

/-- `FileOperations.read_file`; `none` models the `open` call raising. -/
def readFile (fs : FileSystem) (p : String) : Option String := fs.files p

/-- `FileOperations.write_file`: back up an existing target when asked,
then write the new content (parent directories are implicit here). -/
def writeFile (fs : FileSystem) (p content ts : String)
    (createBackup : Bool) : FileSystem :=
  let fs1 :=
    if (fs.files p).isSome && createBackup then backupFile fs p ts else fs
  { fs1 with files := fun q => if q = p then some content else fs1.files q }

/-- `FileOperations.delete_file`: no-op on a missing target, otherwise
back up when asked and unlink. -/
def deleteFile (fs : FileSystem) (p ts : String) (createBackup : Bool) :
    FileSystem :=
  match fs.files p with
  | none => fs
  | some _ =>
    let fs1 := if createBackup then backupFile fs p ts else fs
    { fs1 with files := fun q => if q = p then none else fs1.files q }

/-! ## Unified diffs (`FileOperations.generate_diff`)

`generate_diff` delegates to the standard library's
`difflib.unified_diff`, an external collaborator of the repository.
It is modelled here at the line level as a longest-common-subsequence
edit script rendered only when some line differs: `difflib` emits no
output at all for equal sequences (no groups of non-equal opcodes
exist), and that is the sole property of its output the claims use. -/

/-- One line-level edit operation. -/
inductive DiffOp where
  | keep (s : String)
  | del (s : String)
  | ins (s : String)
deriving DecidableEq, Repr

/-- Whether an operation leaves its line unchanged. -/
def DiffOp.isKeep : DiffOp → Bool
  | .keep _ => true
  | .del _ => false
  | .ins _ => false

/-- Number of kept lines in an edit script. -/
def keepCount (ops : List DiffOp) : Nat :=
  (ops.filter DiffOp.isKeep).length

/-- Line-level edit script maximizing the number of kept lines. -/
def diffOps : List String → List String → List DiffOp
  | [], [] => []
  | [], b :: bs => .ins b :: diffOps [] bs
  | a :: as, [] => .del a :: diffOps as []
  | a :: as, b :: bs =>
    if a = b then .keep a :: diffOps as bs
    else
      let d1 := diffOps as (b :: bs)
      let d2 := diffOps (a :: as) bs
      if keepCount d2 ≤ keepCount d1 then .del a :: d1 else .ins b :: d2
termination_by l1 l2 => l1.length + l2.length
decreasing_by all_goals simp_arith

/-- Render one edit operation in unified style. -/
def renderOp : DiffOp → String
  | .keep s => " " ++ s
  | .del s => "-" ++ s
  | .ins s => "+" ++ s

/-- Whether the script changes anything. -/
def hasChange (ops : List DiffOp) : Bool :=
  ops.any (fun op => !(op.isKeep))

/-- `difflib.unified_diff` as consumed by `generate_diff`: empty output
for equal inputs, file headers plus the rendered script otherwise. -/
def unifiedDiff (old new : List String) (fromFile toFile : String) : String :=
  let ops := diffOps old new
  if hasChange ops then
    "--- " ++ fromFile ++ "\n+++ " ++ toFile ++ "\n"
      ++ String.join (ops.map renderOp)
  else ""

/-- Accumulating scanner for `splitLinesKeepEnds`. -/
def splitLinesGo : List Char → List Char → List String
  | acc, [] => if acc.isEmpty then [] else [String.mk acc.reverse]
  | acc, c :: rest =>
    if c == '\n' then String.mk (c :: acc).reverse :: splitLinesGo [] rest
    else splitLinesGo (c :: acc) rest

/-- Python `str.splitlines(keepends=True)`, on newline separators. -/
def splitLinesKeepEnds (s : String) : List String :=
  splitLinesGo [] s.data

/-- `FileOperations.generate_diff`: unified diff against the current
content, or the synthetic new-file marker when the path does not exist. -/
def generateDiff (fs : FileSystem) (p newContent : String) : String :=
  match fs.files p with
  | some old =>
    unifiedDiff (splitLinesKeepEnds old) (splitLinesKeepEnds newContent)
      ("a/" ++ p) ("b/" ++ p)
  | none => "New file: " ++ p ++ "\n" ++ newContent

/-! ## Change generation and application (`agent/execution/code_generator.py`) -/

/-- `agent/models.py` `CodeChange`; `operation` is a plain string and
`content` is optional, as in the pydantic model. -/
structure CodeChange where
  file_path : String
  operation : String
  content : Option String
  diff : Option String := none
deriving DecidableEq, Repr

/-- One entry of the result-dictionary list built by `apply_changes`. -/
structure ApplyResult where
  file_path : String
  operation : String
  success : Bool
  error : Option String := none
  diff : Option String := none
  message : Option String := none
deriving DecidableEq, Repr

/-- Python truthiness of `change.content`: present and non-empty. -/
def contentTruthy : Option String → Bool
  | none => false
  | some s => !(s == "")

/-- One pass of the loop body of `CodeGenerator.apply_changes` for a
single change. Preview mode only computes diffs; commit mode validates
required content, writes or deletes with backups, and isolates the
raised `ValueError` into a failure result. A change whose operation is
none of the three known ones falls through every branch in commit mode
and appends no result. -/
def applyOne (fs : FileSystem) (ts : String) (preview : Bool)
    (c : CodeChange) : FileSystem × Option ApplyResult :=
  if preview then
    if (c.operation == "create" || c.operation == "update")
        && contentTruthy c.content then
      (fs, some { file_path := c.file_path, operation := c.operation,
                  success := true,
                  diff := some (generateDiff fs c.file_path
                    (c.content.getD "")) })
    else
      (fs, some { file_path := c.file_path, operation := c.operation,
                  success := true,
                  message := some ("Will " ++ c.operation ++ " file") })
  else
    if c.operation == "create" || c.operation == "update" then
      if !(contentTruthy c.content) then
        (fs, some { file_path := c.file_path, operation := c.operation,
                    success := false,
                    error := some "Content required for create/update" })
      else
        (writeFile fs c.file_path (c.content.getD "") ts true,
         some { file_path := c.file_path, operation := c.operation,
                success := true })
    else if c.operation == "delete" then
      (deleteFile fs c.file_path ts true,
       some { file_path := c.file_path, operation := "delete",
              success := true })
    else (fs, none)

/-- `CodeGenerator.apply_changes`: fold the per-change body over the
batch, threading the filesystem and collecting each change's result. -/
def applyChanges (fs : FileSystem) (ts : String) (changes : List CodeChange)
    (preview : Bool) : FileSystem × List ApplyResult :=
  match changes with
  | [] => (fs, [])
  | c :: rest =>
    let step := applyOne fs ts preview c
    let tail := applyChanges step.1 ts rest preview
    (tail.1, step.2.toList ++ tail.2)

/-- One element of the structured response's `changes` array. -/
structure ChangeDict where
  file_path : String
  operation : String
  content : Option String
deriving DecidableEq, Repr

/-- The object the change-set schema describes. -/
structure ChangesPayload where
  changes : List ChangeDict
deriving DecidableEq, Repr

/-- `CodeGenerator.generate_code_changes`: build `CodeChange` values from
a successful structured generation, and degrade to the empty list when
`generate_structured` raises. -/
def generateCodeChanges (structuredResult : Except String ChangesPayload) :
    List CodeChange :=
  match structuredResult with
  | .ok payload =>
    payload.changes.map (fun d =>
      { file_path := d.file_path, operation := d.operation,
        content := d.content })
  | .error _ => []

/-- An empty workspace with an empty backup directory. -/
def emptyFS : FileSystem := ⟨fun _ => none, fun _ => none⟩

/-- A workspace holding one file, used by witness runs. -/
def oneFileFS : FileSystem :=
  ⟨fun p => if p = "src/f.py" then some "old text" else none, fun _ => none⟩

/-- A well-formed create change for witness runs. -/
def createA : CodeChange :=
  { file_path := "a.py", operation := "create", content := some "print(1)" }

/-- An update change with missing content for witness runs. -/
def updateB : CodeChange :=
  { file_path := "b.py", operation := "update", content := none }

/-- A second well-formed create change for witness runs. -/
def createC : CodeChange :=
  { file_path := "c.py", operation := "create", content := some "x = 2" }

/-! ## Claim theorems -/

/-- C1: for every test result obtained in the verification phase, the
derived `tests_passed` flag is true iff the failed count is zero and the
passed count is strictly positive; in particular `passed = 0, failed = 0`
yields `false`. -/
theorem C1_tests_passed_iff_failed_zero_passed_pos (r : TestResult) :
    ((verificationTestsPassed (Except.ok r)).1 = true
      ↔ r.failed = 0 ∧ 0 < r.passed)
    ∧ (verificationTestsPassed
        (Except.ok ⟨"pytest", 0, 0, 0, "", []⟩)).1 = false := by
  constructor
  · simp [verificationTestsPassed, deriveTestsPassed]
  · rfl

/-- C9: when structured generation of the change set fails,
`generate_code_changes` returns the empty list without propagating an
exception, so applying the resulting change set leaves the filesystem
untouched and records zero applied changes, in commit and preview mode
alike. -/
theorem C9_structured_failure_degrades_to_empty_changes
    (e : String) (fs : FileSystem) (ts : String) :
    generateCodeChanges (Except.error e) = []
    ∧ applyChanges fs ts (generateCodeChanges (Except.error e)) false
        = (fs, [])
    ∧ applyChanges fs ts (generateCodeChanges (Except.error e)) true
        = (fs, []) :=
  ⟨rfl, rfl, rfl⟩

/-- C6 counterexample: on the `xfailTestResult` run the derived
`tests_passed` flag is true, yet the judge's fallback scores quality 0.3,
because its own string heuristic sees the substring `failed` inside
`xfailed` in the raw output. So the fallback quality is not 0.7 whenever
`tests_passed` holds. -/
theorem C6_counterexample_fallback_disagrees_with_flag :
    deriveTestsPassed xfailTestResult = true
    ∧ (judge_completion (Except.error "boom")
        xfailTestResult.output).quality_score = (3 : ℚ) / 10
    ∧ ((3 : ℚ) / 10 ≠ (7 : ℚ) / 10) := by
  refine ⟨rfl, ?_, by norm_num⟩
  have hfb : fallbackTestsPassed "1 passed, 1 xfailed in 0.30s" = false := by
    decide
  simp [judge_completion, judgeFallback, xfailTestResult, hfb]

/-- C6 amended: whenever the convergence judge's structured generation
fails, `judge_completion` returns the fallback heuristic result instead
of propagating the error: quality 0.7 if the raw test output contains
`passed` and not `failed` (case-insensitively) and 0.3 otherwise, with
an issue flagged `judgment unavailable`; judgment failure is never fatal
to the run. -/
theorem C6_amended_fallback_on_judge_failure (e out : String) :
    (judge_completion (Except.error e) out).quality_score
        = (if fallbackTestsPassed out then (7 : ℚ) / 10 else (3 : ℚ) / 10)
    ∧ (judge_completion (Except.error e) out).issues
        = ["LLM judgment unavailable"]
    ∧ (∃ pre post : String,
        "LLM judgment unavailable" = pre ++ "judgment unavailable" ++ post)
    ∧ (judge_completion (Except.error e) out).task_completed
        = fallbackTestsPassed out := by
  refine ⟨rfl, rfl, ⟨"LLM ", "", by rfl⟩, rfl⟩

/-- C10: the unittest parser derives `passed = total - failed - skipped`
with plain integer subtraction, so on the realistic output
`Ran 0 tests ... FAILED (errors=1)` it reports `passed = -1`, violating
the non-negativity the data model promises for all counts. -/
theorem C10_unittest_negative_passed :
    parseUnittestOutput unittestErrorOutput = (-1, 1, 0)
    ∧ (parseUnittestOutput unittestErrorOutput).1 < 0 := by
  refine ⟨by decide, by decide⟩

/-! ### Loop lemmas -/

theorem cycle_stop (M : Nat) (o : VerifOutcome) (st : LoopState)
    (h : M ≤ st.iteration + 1) :
    cycle M o st =
      { iteration := st.iteration + 1, shouldContinue := false,
        completionReason := some "max_iterations",
        taskStatus := .completed, verification := some o } := by
  unfold cycle analysisNode
  dsimp only
  rw [if_pos h]

theorem cycle_success (M : Nat) (o : VerifOutcome) (st : LoopState)
    (h1 : st.iteration + 1 < M) (h2 : meetsVerification o) :
    cycle M o st =
      { iteration := st.iteration + 1, shouldContinue := false,
        completionReason := some "success",
        taskStatus := .completed, verification := some o } := by
  unfold cycle analysisNode
  dsimp only
  rw [if_neg (by omega),
    if_pos (show o.testsPassed = true ∧ (7 : ℚ) / 10 ≤ o.qualityScore from h2)]

theorem cycle_fail_continue (M : Nat) (o : VerifOutcome) (st : LoopState)
    (h1 : st.iteration + 1 < M) (h2 : failsVerification o) :
    cycle M o st =
      { st with iteration := st.iteration + 1, shouldContinue := true,
                taskStatus := .verifying, verification := some o } := by
  unfold cycle analysisNode
  dsimp only
  rw [if_neg (by omega), if_neg]
  rintro ⟨ht, hq⟩
  rcases h2 with h2 | h2
  · rw [ht] at h2
    simp at h2
  · exact absurd hq (not_le.mpr h2)

theorem runLoop_stop (M : Nat) (outcomes : Nat → VerifOutcome)
    (st : LoopState) (acc : Nat)
    (h : (cycle M (outcomes st.iteration) st).shouldContinue = false) :
    runLoop M outcomes st acc = (cycle M (outcomes st.iteration) st, acc + 1) := by
  rw [runLoop]
  simp [h]

theorem runLoop_continue (M : Nat) (outcomes : Nat → VerifOutcome)
    (st : LoopState) (acc : Nat)
    (h : (cycle M (outcomes st.iteration) st).shouldContinue = true) :
    runLoop M outcomes st acc
      = runLoop M outcomes (cycle M (outcomes st.iteration) st) (acc + 1) := by
  rw [runLoop]
  simp [h]

theorem runLoop_all_fail (M : Nat) (outcomes : Nat → VerifOutcome)
    (hfail : ∀ i, failsVerification (outcomes i)) :
    ∀ n (st : LoopState) (acc : Nat), st.iteration + n = M → 0 < n →
      runLoop M outcomes st acc
        = ({ iteration := M, shouldContinue := false,
             completionReason := some "max_iterations",
             taskStatus := .completed,
             verification := some (outcomes (M - 1)) }, acc + n) := by
  intro n
  induction n with
  | zero => intro st acc hsum hpos; omega
  | succ k ih =>
    intro st acc hsum hpos
    rcases Nat.eq_zero_or_pos k with hk | hk
    · subst hk
      have hM : M ≤ st.iteration + 1 := by omega
      have hc := cycle_stop M (outcomes st.iteration) st hM
      rw [runLoop_stop M outcomes st acc (by rw [hc]), hc]
      have hit : st.iteration = M - 1 := by omega
      rw [hit]
      have : M - 1 + 1 = M := by omega
      rw [this]
    · have hlt : st.iteration + 1 < M := by omega
      have hc := cycle_fail_continue M (outcomes st.iteration) st hlt
        (hfail st.iteration)
      rw [runLoop_continue M outcomes st acc (by rw [hc])]
      rw [hc]
      have := ih { st with iteration := st.iteration + 1,
                           shouldContinue := true,
                           taskStatus := .verifying,
                           verification := some (outcomes st.iteration) }
        (acc + 1) (by simp; omega) hk
      rw [this]
      have : acc + 1 + k = acc + (k + 1) := by omega
      rw [this]

theorem runLoop_first_success (M : Nat) (outcomes : Nat → VerifOutcome)
    (k : Nat) (hkM : k + 1 < M) (hsucc : meetsVerification (outcomes k)) :
    ∀ n (st : LoopState) (acc : Nat), st.iteration + n = k + 1 → 0 < n →
      (∀ j, st.iteration ≤ j → j < k → failsVerification (outcomes j)) →
      runLoop M outcomes st acc
        = ({ iteration := k + 1, shouldContinue := false,
             completionReason := some "success",
             taskStatus := .completed,
             verification := some (outcomes k) }, acc + n) := by
  intro n
  induction n with
  | zero => intro st acc hsum hpos; omega
  | succ m ih =>
    intro st acc hsum hpos hfail
    rcases Nat.eq_zero_or_pos m with hm | hm
    · subst hm
      have hit : st.iteration = k := by omega
      have hc := cycle_success M (outcomes st.iteration) st
        (by omega) (by rw [hit]; exact hsucc)
      rw [runLoop_stop M outcomes st acc (by rw [hc]), hc, hit]
    · have hlt : st.iteration < k := by omega
      have hc := cycle_fail_continue M (outcomes st.iteration) st
        (by omega) (hfail st.iteration le_rfl hlt)
      rw [runLoop_continue M outcomes st acc (by rw [hc])]
      rw [hc]
      have := ih { st with iteration := st.iteration + 1,
                           shouldContinue := true,
                           taskStatus := .verifying,
                           verification := some (outcomes st.iteration) }
        (acc + 1) (by simp; omega) hm
        (by intro j hj1 hj2; exact hfail j (by simp at hj1; omega) hj2)
      rw [this]
      have : acc + 1 + m = acc + (m + 1) := by omega
      rw [this]

/-- C2 counterexample: with `max_iterations = 0` (the configuration field
is an unconstrained integer) the loop still performs one full cycle
before the first budget check, so it does not perform exactly `N = 0`
cycles as the claim demands for every configured value. -/
theorem C2_counterexample_zero_iteration_budget :
    (runAgent 0 alwaysFailing).2 = 1
    ∧ (runAgent 0 alwaysFailing).2 ≠ 0
    ∧ (runAgent 0 alwaysFailing).1.completionReason = some "max_iterations" := by
  have hc := cycle_stop 0 (alwaysFailing initialLoopState.iteration)
    initialLoopState (by omega)
  have h := runLoop_stop 0 alwaysFailing initialLoopState 0 (by rw [hc])
  unfold runAgent
  rw [h, hc]
  exact ⟨rfl, by omega, rfl⟩

/-- C2 amended: for every configured `max_iterations N ≥ 1`, if
verification fails on every iteration (tests not passed or quality below
0.7 each time), the loop performs exactly `N` full
plan/execute/verify/analyze cycles and then terminates with completion
reason `max_iterations` (not `success`), task status completed, and
final iteration count `N`. -/
theorem C2_amended_max_iterations_exhausts_budget
    (M : Nat) (outcomes : Nat → VerifOutcome) (hM : 1 ≤ M)
    (hfail : ∀ i, failsVerification (outcomes i)) :
    (runAgent M outcomes).2 = M
    ∧ (runAgent M outcomes).1.completionReason = some "max_iterations"
    ∧ (runAgent M outcomes).1.completionReason ≠ some "success"
    ∧ (runAgent M outcomes).1.taskStatus = TaskStatus.completed
    ∧ (runAgent M outcomes).1.iteration = M
    ∧ (runAgent M outcomes).1.shouldContinue = false := by
  have h := runLoop_all_fail M outcomes hfail M initialLoopState 0
    (by simp [initialLoopState]) (by omega)
  unfold runAgent
  rw [h]
  refine ⟨by simp, rfl, by simp, rfl, rfl, rfl⟩

/-- C2 amended, witnessed at `max_iterations = 3` with every iteration
failing verification: exactly three cycles run and the loop ends with
reason `max_iterations`. -/
theorem C2_amended_witness :
    (1 ≤ 3 ∧ ∀ i : Nat, failsVerification (alwaysFailing i))
    ∧ (runAgent 3 alwaysFailing).2 = 3
    ∧ (runAgent 3 alwaysFailing).1.completionReason = some "max_iterations"
    ∧ (runAgent 3 alwaysFailing).1.taskStatus = TaskStatus.completed := by
  have hfail : ∀ i : Nat, failsVerification (alwaysFailing i) :=
    fun _ => Or.inl rfl
  have h := C2_amended_max_iterations_exhausts_budget 3 alwaysFailing
    (by omega) hfail
  exact ⟨⟨by omega, hfail⟩, h.1, h.2.1, h.2.2.2.1⟩

/-- C3: if on some iteration `k` with `1 ≤ k < max_iterations` the
verification result has tests passed and quality at least 0.7, while
every earlier iteration failed verification, the analysis step stops the
loop immediately with completion reason `success`, final iteration count
exactly `k`, task status completed, and exactly `k` cycles performed. -/
theorem C3_success_stops_loop_immediately
    (M k : Nat) (outcomes : Nat → VerifOutcome)
    (hk : 1 ≤ k) (hkM : k < M)
    (hfail : ∀ j, j + 1 < k → failsVerification (outcomes j))
    (hsucc : meetsVerification (outcomes (k - 1))) :
    (runAgent M outcomes).2 = k
    ∧ (runAgent M outcomes).1.completionReason = some "success"
    ∧ (runAgent M outcomes).1.iteration = k
    ∧ (runAgent M outcomes).1.taskStatus = TaskStatus.completed
    ∧ (runAgent M outcomes).1.shouldContinue = false := by
  have hkM1 : (k - 1) + 1 < M := by omega
  have h := runLoop_first_success M outcomes (k - 1) hkM1 hsucc k
    initialLoopState 0 (by simp [initialLoopState]; omega) (by omega)
    (by intro j hj1 hj2; exact hfail j (by omega))
  unfold runAgent
  rw [h]
  have hkk : k - 1 + 1 = k := by omega
  rw [hkk]
  exact ⟨by simp, rfl, rfl, rfl, rfl⟩

/-- C3 witnessed at the spec's scenario: success (quality 0.75) on
iteration 2 of a 10-iteration budget stops the loop with reason
`success` after exactly 2 cycles. -/
theorem C3_success_witness :
    (1 ≤ 2 ∧ 2 < 10
      ∧ (∀ j, j + 1 < 2 → failsVerification (succeedsAtTwo j))
      ∧ meetsVerification (succeedsAtTwo 1))
    ∧ (runAgent 10 succeedsAtTwo).2 = 2
    ∧ (runAgent 10 succeedsAtTwo).1.completionReason = some "success"
    ∧ (runAgent 10 succeedsAtTwo).1.iteration = 2 := by
  have hfail : ∀ j, j + 1 < 2 → failsVerification (succeedsAtTwo j) := by
    intro j hj
    have : j = 0 := by omega
    subst this
    exact Or.inl rfl
  have hsucc : meetsVerification (succeedsAtTwo 1) := by
    constructor
    · rfl
    · norm_num [succeedsAtTwo]
  have h := C3_success_stops_loop_immediately 10 2 succeedsAtTwo
    (by omega) (by omega) hfail hsucc
  exact ⟨⟨by omega, by omega, hfail, hsucc⟩, h.1, h.2.1, h.2.2.1⟩

/-! ### Context compaction -/

/-- C5 counterexample: `compact_context` slices the middle segment
positionally from index `len(system_messages)`, so on a history whose
system message is not at the front the first user message lands in none
of the three segments: it is not kept as a system message, not in the
recent tail, not summarized, and it vanishes from the compacted history.
The operation does not partition such a history. -/
theorem C5_counterexample_non_prefix_system_message :
    (⟨"user", "a", []⟩ : Msg) ∈ nonPrefixHistory
    ∧ (⟨"user", "a", []⟩ : Msg).role ≠ "system"
    ∧ (⟨"user", "a", []⟩ : Msg) ∉
        nonPrefixHistory.drop (nonPrefixHistory.length - 2)
    ∧ (⟨"user", "a", []⟩ : Msg) ∉ messagesToSummarize nonPrefixHistory 2
    ∧ (⟨"user", "a", []⟩ : Msg) ∉
        compactContext 2 (fun _ => some "SUM") nonPrefixHistory := by
  decide

theorem filter_system_front (S R : List Msg)
    (hS : ∀ m ∈ S, m.role = "system") (hR : ∀ m ∈ R, m.role ≠ "system") :
    (S ++ R).filter (fun m => m.role == "system") = S := by
  rw [List.filter_append]
  have h1 : S.filter (fun m => m.role == "system") = S :=
    List.filter_eq_self.mpr (by intro a ha; simpa using hS a ha)
  have h2 : R.filter (fun m => m.role == "system") = [] := by
    rw [List.filter_eq_nil_iff]
    intro a ha
    simpa using hR a ha
  rw [h1, h2, List.append_nil]

/-- C5 amended: provided every system-role message precedes every
non-system message (as holds for every history the orchestrator builds),
`compact(keep_recent)` partitions the history into the system prefix, a
middle segment, and the last `keep_recent` messages; when the middle is
empty it leaves the history unchanged; otherwise it reassembles the
history as the system messages, exactly one system-role summary message,
and the recent tail; and when summary generation fails it instead
discards the middle segment without raising. -/
theorem C5_amended_compact_on_system_prefix_history
    (keep : Nat) (gen : List Msg → Option String) (S R : List Msg)
    (hS : ∀ m ∈ S, m.role = "system") (hR : ∀ m ∈ R, m.role ≠ "system") :
    (messagesToSummarize (S ++ R) keep = [] →
      compactContext keep gen (S ++ R) = S ++ R)
    ∧ (messagesToSummarize (S ++ R) keep ≠ [] →
        S ++ R = S ++ messagesToSummarize (S ++ R) keep
            ++ (S ++ R).drop ((S ++ R).length - keep)
        ∧ (∀ s, gen (messagesToSummarize (S ++ R) keep) = some s →
            compactContext keep gen (S ++ R)
              = S ++ [⟨"system", "[Summary of previous conversation]: " ++ s,
                       [("type", "summary")]⟩]
                ++ (S ++ R).drop ((S ++ R).length - keep))
        ∧ (gen (messagesToSummarize (S ++ R) keep) = none →
            compactContext keep gen (S ++ R)
              = S ++ (S ++ R).drop ((S ++ R).length - keep))) := by
  have hfilter := filter_system_front S R hS hR
  constructor
  · intro hmid
    unfold compactContext
    by_cases hlen : (S ++ R).length ≤ keep
    · rw [if_pos hlen]
    · rw [if_neg hlen]
      simp only [hmid, List.isEmpty_nil, if_true]
  · intro hmid
    have hkeep : keep ≠ 0 := by
      intro h0
      apply hmid
      subst h0
      simp [messagesToSummarize]
    have hmid_eq : messagesToSummarize (S ++ R) keep
        = R.take (R.length - keep) := by
      unfold messagesToSummarize
      rw [hfilter, if_neg hkeep]
      dsimp only
      rw [List.drop_left]
      congr 1
      simp only [List.length_append]
      omega
    have hkR : keep < R.length := by
      by_contra hc
      push_neg at hc
      apply hmid
      rw [hmid_eq]
      have h0 : R.length - keep = 0 := by omega
      rw [h0, List.take_zero]
    have hlen_gt : ¬(S ++ R).length ≤ keep := by
      simp only [List.length_append]
      omega
    have hrecent : (S ++ R).drop ((S ++ R).length - keep)
        = R.drop (R.length - keep) := by
      have h1 : (S ++ R).length - keep = S.length + (R.length - keep) := by
        simp only [List.length_append]
        omega
      rw [h1, List.drop_append]
    have hne : (messagesToSummarize (S ++ R) keep).isEmpty = false := by
      rw [List.isEmpty_eq_false]
      exact hmid
    refine ⟨?_, ?_, ?_⟩
    · rw [hmid_eq, hrecent, List.append_assoc, List.take_append_drop]
    · intro s hgen
      unfold compactContext
      rw [if_neg hlen_gt]
      simp only [hne, Bool.false_eq_true, if_false, hgen, hfilter,
        if_neg hkeep]
    · intro hgen
      unfold compactContext
      rw [if_neg hlen_gt]
      simp only [hne, Bool.false_eq_true, if_false, hgen, hfilter,
        if_neg hkeep]

/-- C5 amended, witnessed on an eight-message history with the default
`keep_recent = 5`: the history partitions, a successful summary is
spliced in as one system message, and a failed summary discards the
middle. -/
theorem C5_amended_witness :
    ((∀ m ∈ sysPrefixS, m.role = "system")
      ∧ (∀ m ∈ userTailR, m.role ≠ "system")
      ∧ messagesToSummarize (sysPrefixS ++ userTailR) 5 ≠ [])
    ∧ sysPrefixS ++ userTailR
        = sysPrefixS ++ messagesToSummarize (sysPrefixS ++ userTailR) 5
          ++ (sysPrefixS ++ userTailR).drop ((sysPrefixS ++ userTailR).length - 5)
    ∧ compactContext 5 (fun _ => some "SUM") (sysPrefixS ++ userTailR)
        = sysPrefixS
          ++ [⟨"system", "[Summary of previous conversation]: " ++ "SUM",
               [("type", "summary")]⟩]
          ++ (sysPrefixS ++ userTailR).drop ((sysPrefixS ++ userTailR).length - 5)
    ∧ compactContext 5 (fun _ => none) (sysPrefixS ++ userTailR)
        = sysPrefixS
          ++ (sysPrefixS ++ userTailR).drop ((sysPrefixS ++ userTailR).length - 5) := by
  have hS : ∀ m ∈ sysPrefixS, m.role = "system" := by decide
  have hR : ∀ m ∈ userTailR, m.role ≠ "system" := by decide
  have hne : messagesToSummarize (sysPrefixS ++ userTailR) 5 ≠ [] := by decide
  have h1 := C5_amended_compact_on_system_prefix_history 5
    (fun _ => some "SUM") sysPrefixS userTailR hS hR
  have h2 := C5_amended_compact_on_system_prefix_history 5
    (fun _ => none) sysPrefixS userTailR hS hR
  exact ⟨⟨hS, hR, hne⟩, (h1.2 hne).1, (h1.2 hne).2.1 "SUM" rfl,
    (h2.2 hne).2.2 rfl⟩

/-! ### Change application -/

theorem applyChanges_append (fs : FileSystem) (ts : String)
    (xs ys : List CodeChange) (pv : Bool) :
    applyChanges fs ts (xs ++ ys) pv
      = ((applyChanges (applyChanges fs ts xs pv).1 ts ys pv).1,
         (applyChanges fs ts xs pv).2
           ++ (applyChanges (applyChanges fs ts xs pv).1 ts ys pv).2) := by
  induction xs generalizing fs with
  | nil => simp [applyChanges]
  | cons c rest ih =>
    simp only [List.cons_append, applyChanges, List.append_eq]
    rw [ih]
    simp [List.append_assoc]

theorem applyOne_missing_content (fs : FileSystem) (ts : String)
    (c : CodeChange) (hop : c.operation = "create" ∨ c.operation = "update")
    (hcontent : contentTruthy c.content = false) :
    applyOne fs ts false c
      = (fs, some { file_path := c.file_path, operation := c.operation,
                    success := false,
                    error := some "Content required for create/update" }) := by
  rcases hop with h | h <;> simp [applyOne, h, hcontent]

/-- C4: committing a batch of changes processes every change
independently. A create/update change with missing content produces a
failure result carrying the error text, leaves the filesystem exactly as
the earlier changes left it (no rollback of their effects), and the
remaining changes are still attempted against that same state, each with
its own result. -/
theorem C4_commit_batch_is_not_atomic
    (fs : FileSystem) (ts : String) (pre post : List CodeChange)
    (c : CodeChange)
    (hop : c.operation = "create" ∨ c.operation = "update")
    (hcontent : contentTruthy c.content = false) :
    applyOne (applyChanges fs ts pre false).1 ts false c
      = ((applyChanges fs ts pre false).1,
         some { file_path := c.file_path, operation := c.operation,
                success := false,
                error := some "Content required for create/update" })
    ∧ applyChanges fs ts (pre ++ c :: post) false
      = ((applyChanges (applyChanges fs ts pre false).1 ts post false).1,
         (applyChanges fs ts pre false).2
           ++ [{ file_path := c.file_path, operation := c.operation,
                 success := false,
                 error := some "Content required for create/update" }]
           ++ (applyChanges (applyChanges fs ts pre false).1 ts post false).2) := by
  have hfail := applyOne_missing_content (applyChanges fs ts pre false).1 ts c
    hop hcontent
  refine ⟨hfail, ?_⟩
  rw [applyChanges_append]
  conv_lhs => rw [applyChanges]
  rw [hfail]
  simp [List.append_assoc]

/-- C4 witnessed on the batch `[createA, updateB, createC]`: the
middle change fails with the recorded error while the first stays
applied and the third is still attempted. -/
theorem C4_commit_batch_witness :
    ((updateB.operation = "create" ∨ updateB.operation = "update")
      ∧ contentTruthy updateB.content = false)
    ∧ applyChanges emptyFS "20240101_120000" ([createA] ++ updateB :: [createC]) false
      = ((applyChanges (applyChanges emptyFS "20240101_120000" [createA] false).1
            "20240101_120000" [createC] false).1,
         (applyChanges emptyFS "20240101_120000" [createA] false).2
           ++ [{ file_path := updateB.file_path, operation := updateB.operation,
                 success := false,
                 error := some "Content required for create/update" }]
           ++ (applyChanges (applyChanges emptyFS "20240101_120000" [createA] false).1
                "20240101_120000" [createC] false).2) := by
  have h := C4_commit_batch_is_not_atomic emptyFS "20240101_120000"
    [createA] [createC] updateB (Or.inr rfl) rfl
  exact ⟨⟨Or.inr rfl, rfl⟩, h.2⟩

/-! ### File round-trip and backups -/

theorem strData_append (a b : String) : (a ++ b).data = a.data ++ b.data := by
  cases a
  cases b
  rfl

/-- C7: writing a file then reading it returns exactly the written
content; a commit-mode overwrite or delete of an existing file first
copies the current content to a backup entry whose name embeds the
original file name and the timestamp, byte-identical to the pre-change
content; and for a fixed file name the backup path determines the
timestamp, so names built from distinct second-granularity timestamps
never collide. -/
theorem C7_roundtrip_and_backup
    (fs : FileSystem) (p c ts old : String) (h : fs.files p = some old) :
    (∀ (fs2 : FileSystem) (p2 c2 ts2 : String) (b2 : Bool),
        readFile (writeFile fs2 p2 c2 ts2 b2) p2 = some c2)
    ∧ (writeFile fs p c ts true).backups (backupName (fileName p) ts) = some old
    ∧ readFile (deleteFile fs p ts true) p = none
    ∧ (deleteFile fs p ts true).backups (backupName (fileName p) ts) = some old
    ∧ backupName (fileName p) ts = fileName p ++ "." ++ ts ++ ".bak"
    ∧ (∀ n ts1 ts2 : String,
        backupName n ts1 = backupName n ts2 → ts1 = ts2) := by
  refine ⟨?_, ?_, ?_, ?_, rfl, ?_⟩
  · intro fs2 p2 c2 ts2 b2
    simp [readFile, writeFile]
  · simp [writeFile, backupFile, h]
  · simp [readFile, deleteFile, h, backupFile]
  · simp [deleteFile, backupFile, h]
  · intro n ts1 ts2 hbn
    unfold backupName at hbn
    have hd := congrArg String.data hbn
    simp only [strData_append] at hd
    have h1 := List.append_cancel_right hd
    have h2 := List.append_cancel_left h1
    cases ts1
    cases ts2
    exact congrArg String.mk h2

/-- C7 witnessed on a one-file workspace: the round-trip returns the
written content, overwrite and delete both leave a backup entry equal to
the old content at the name-plus-timestamp path, and the backup name is
injective in the timestamp. -/
theorem C7_roundtrip_and_backup_witness :
    oneFileFS.files "src/f.py" = some "old text"
    ∧ readFile (writeFile oneFileFS "src/f.py" "new text" "20240101_120000" true)
        "src/f.py" = some "new text"
    ∧ (writeFile oneFileFS "src/f.py" "new text" "20240101_120000" true).backups
        (backupName (fileName "src/f.py") "20240101_120000") = some "old text"
    ∧ readFile (deleteFile oneFileFS "src/f.py" "20240101_120000" true)
        "src/f.py" = none
    ∧ (deleteFile oneFileFS "src/f.py" "20240101_120000" true).backups
        (backupName (fileName "src/f.py") "20240101_120000") = some "old text"
    ∧ backupName (fileName "src/f.py") "20240101_120000"
        = fileName "src/f.py" ++ "." ++ "20240101_120000" ++ ".bak" := by
  have h := C7_roundtrip_and_backup oneFileFS "src/f.py" "new text"
    "20240101_120000" "old text" rfl
  exact ⟨rfl, h.1 oneFileFS "src/f.py" "new text" "20240101_120000" true,
    h.2.1, h.2.2.1, h.2.2.2.1, h.2.2.2.2.1⟩

/-! ### Diffs and preview mode -/

theorem diffOps_self (l : List String) : diffOps l l = l.map DiffOp.keep := by
  induction l with
  | nil => simp [diffOps]
  | cons a as ih => simp [diffOps, ih]

theorem hasChange_map_keep (l : List String) :
    hasChange (l.map DiffOp.keep) = false := by
  simp [hasChange, List.any_map, Function.comp, DiffOp.isKeep]

theorem applyOne_preview_fs (fs : FileSystem) (ts : String) (c : CodeChange) :
    (applyOne fs ts true c).1 = fs := by
  unfold applyOne
  split
  · split <;> rfl
  · next h => exact absurd rfl h

theorem applyChanges_preview_fs (fs : FileSystem) (ts : String)
    (changes : List CodeChange) :
    (applyChanges fs ts changes true).1 = fs := by
  induction changes generalizing fs with
  | nil => rfl
  | cons c rest ih =>
    simp only [applyChanges]
    rw [applyOne_preview_fs]
    exact ih fs

/-- C8: when a file's current content equals the proposed new content
the computed diff is empty; when the path does not exist the diff is the
synthetic new-file marker containing the full proposed content; and
preview-mode application never modifies the filesystem. -/
theorem C8_diff_empty_new_file_preview_pure
    (fs : FileSystem) (ts : String) (p newContent : String)
    (changes : List CodeChange) :
    (fs.files p = some newContent → generateDiff fs p newContent = "")
    ∧ (fs.files p = none →
        generateDiff fs p newContent = "New file: " ++ p ++ "\n" ++ newContent)
    ∧ (applyChanges fs ts changes true).1 = fs := by
  refine ⟨?_, ?_, applyChanges_preview_fs fs ts changes⟩
  · intro h
    unfold generateDiff unifiedDiff
    rw [h]
    dsimp only
    rw [diffOps_self, hasChange_map_keep]
    rfl
  · intro h
    unfold generateDiff
    rw [h]

/-- C8 witnessed on a one-file workspace: an identical-content diff is
empty, a diff against a missing path renders the new-file marker, and a
preview batch leaves the filesystem untouched. -/
theorem C8_diff_witness :
    oneFileFS.files "src/f.py" = some "old text"
    ∧ generateDiff oneFileFS "src/f.py" "old text" = ""
    ∧ oneFileFS.files "README.md" = none
    ∧ generateDiff oneFileFS "README.md" "hello"
        = "New file: " ++ "README.md" ++ "\n" ++ "hello"
    ∧ (applyChanges oneFileFS "20240101_120000" [createA, updateB] true).1
        = oneFileFS := by
  have h1 := C8_diff_empty_new_file_preview_pure oneFileFS "20240101_120000"
    "src/f.py" "old text" [createA, updateB]
  have h2 := C8_diff_empty_new_file_preview_pure oneFileFS "20240101_120000"
    "README.md" "hello" [createA, updateB]
  exact ⟨rfl, h1.1 rfl, rfl, h2.2.1 rfl, h1.2.2⟩

end CodingAgent
